import Mathlib

/-
  Verification development for the letsbench benchmarking CLI
  (src/src/index.ts).  The repository concatenates two revisions of the
  same tool; the logic modelled below (getValue, the explore closure of
  getFunctions, the run loop of benchmarkFunction, parseArguments, and
  the winner block of displayResults) is taken from the revision the
  cited claim lines point at.  JavaScript objects are modelled as a heap
  of nodes addressed by natural-number references, so that object
  identity and cyclic structures are representable.  JavaScript numbers
  are modelled as rationals, with Option used where a non-finite value
  (NaN from 0/0, or division by zero) can arise.  Platform functions
  (JSON.parse, JSON.stringify) are taken as parameters.
-/

/-- The trim of JavaScript, as removal of leading and trailing
whitespace characters, implemented over the character list so that it
evaluates inside the kernel. -/
def jsTrim (s : String) : String :=
  ⟨((s.data.dropWhile Char.isWhitespace).reverse.dropWhile Char.isWhitespace).reverse⟩

def strStartsWith (s p : String) : Bool :=
  p.data.isPrefixOf s.data

def strEndsWith (s p : String) : Bool :=
  p.data.reverse.isPrefixOf s.data.reverse

/-- Split a character list on a separator character, keeping empty
groups, as the split of JavaScript does. -/
def splitOnCharList (sep : Char) : List Char → List (List Char)
  | [] => [[]]
  | c :: rest =>
    let r := splitOnCharList sep rest
    if c = sep then [] :: r
    else
      match r with
      | [] => [[c]]
      | g :: gs => (c :: g) :: gs

/-- The split on a dot of JavaScript: path.split applied to a one-dot
separator, so the empty string yields one empty segment. -/
def jsSplitDot (s : String) : List String :=
  (splitOnCharList '.' s.data).map (fun l => ⟨l⟩)

/-- A JavaScript value: undefined, null, a primitive, or a reference to
a heap node (an object or a function). -/
inductive Val where
  | undefined
  | null
  | bool (b : Bool)
  | num (q : ℚ)
  | str (s : String)
  | ref (r : Nat)
deriving DecidableEq, Repr

/-- One own property of a heap node: its name, whether it is enumerable
(Object.keys lists only enumerable ones; getOwnPropertyNames lists all),
and its value. -/
structure JSProp where
  name : String
  enumerable : Bool
  value : Val
deriving DecidableEq, Repr

/-- A heap node: either a plain object or a function (isFunc), with its
own properties. -/
structure Node where
  isFunc : Bool
  props : List JSProp
deriving DecidableEq, Repr

/-- The heap: nodes addressed by their list index. -/
def Heap := List Node

def heapNode (h : Heap) (r : Nat) : Option Node :=
  List.get? h r

def lookupProp (props : List JSProp) (key : String) : Option Val :=
  match props with
  | [] => none
  | p :: rest => if p.name = key then some p.value else lookupProp rest key

/-- Plain property access obj[key] on a non-nullish value: heap lookup
for references, undefined for primitives and missing keys. -/
def getProp (h : Heap) (v : Val) (key : String) : Val :=
  match v with
  | .ref r =>
    match heapNode h r with
    | some n => (lookupProp n.props key).getD .undefined
    | none => .undefined
  | _ => .undefined

/-- Optional-chained access current?.[key] as used in the reduce of
getValue: nullish receivers short-circuit to undefined. -/
def optChainGet (h : Heap) (v : Val) (key : String) : Val :=
  match v with
  | .undefined => .undefined
  | .null => .undefined
  | _ => getProp h v key

/-- JavaScript truthiness of a value. -/
def jsTruthy : Val → Bool
  | .undefined => false
  | .null => false
  | .bool b => b
  | .num q => decide (q ≠ 0)
  | .str s => decide (s ≠ "")
  | .ref _ => true

/-- typeof v is the string function. -/
def isFunction (h : Heap) : Val → Bool
  | .ref r =>
    match heapNode h r with
    | some n => n.isFunc
    | none => false
  | _ => false

/-- Model of getValue (src/src/index.ts lines 240 to 249).  The path
default reads obj.default with a plain access, which throws a TypeError
when obj is nullish, and falls back to obj itself when obj.default is
falsy; the path main returns obj; every other path is split on dots and
walked with optional chaining, so a broken path yields undefined rather
than an exception. -/
def getValue (h : Heap) (obj : Val) (path : String) : Except String Val :=
  if path = "default" then
    match obj with
    | .undefined => .error "Cannot read properties of undefined"
    | .null => .error "Cannot read properties of null"
    | _ =>
      let d := getProp h obj "default"
      .ok (if jsTruthy d then d else obj)
  else if path = "main" then .ok obj
  else .ok ((jsSplitDot path).foldl (fun cur key => optChainGet h cur key) obj)

/-- Model of the resolution step of benchmarkFunction (src/src/index.ts
lines 251 to 256): resolve the path with getValue and throw the single
TypeError when the resolved value is not a function. -/
def resolveCallable (h : Heap) (pkg : Val) (functionPath : String) : Except String Val :=
  match getValue h pkg functionPath with
  | .error e => .error e
  | .ok func =>
    if isFunction h func then .ok func
    else .error (functionPath ++ " is not a function")

/-- Enumerable own property names of a node, as Object.keys lists them. -/
def enumKeys (n : Node) : List String :=
  (n.props.filter (·.enumerable)).map (·.name)

/-- All own property names of a node, as Object.getOwnPropertyNames
lists them. -/
def ownKeys (n : Node) : List String :=
  n.props.map (·.name)

/-- The key list built at the top of the for loop of the explore closure
(src/src/index.ts lines 170 to 180): Object.keys plus the function-valued
getOwnPropertyNames not already listed, with underscore-prefixed and
structural names excluded. -/
def exploreKeyList (h : Heap) (n : Node) : List String :=
  let keys := enumKeys n
  let extra := (ownKeys n).filter (fun k =>
    !(keys.contains k) && isFunction h ((lookupProp n.props k).getD .undefined))
  (keys ++ extra).filter (fun k =>
    !(strStartsWith k "_") && !(strStartsWith k "__")
      && !(["constructor", "prototype", "caller", "arguments", "name", "length"].contains k))

/-- typeof v is the string object, which holds for null and for
references to non-function nodes. -/
def typeofIsObject (h : Heap) : Val → Bool
  | .null => true
  | .ref r =>
    match heapNode h r with
    | some n => !n.isFunc
    | none => true
  | _ => false

def isRef : Val → Bool
  | .ref _ => true
  | _ => false

/-- The mutable state of the explore closure: the visited set of node
references (a WeakSet in the source) and the accumulated path list. -/
structure ExploreSt where
  visited : List Nat
  functions : List String
deriving DecidableEq, Repr

/-- One unfolding of the explore closure (src/src/index.ts lines 152 to
204), parameterised by the recursive call used for child nodes.  The
entry guards (depth above maxDepth, nullish obj), the visited check, the
push of path or main for function nodes, and the per-key push and
guarded recursion all follow the source. -/
def exploreStep (h : Heap) (maxDepth : Nat)
    (rec : Val → String → Nat → ExploreSt → ExploreSt)
    (obj : Val) (path : String) (depth : Nat) (st : ExploreSt) : ExploreSt :=
  if maxDepth < depth then st
  else
    match obj with
    | .undefined => st
    | .null => st
    | .ref r =>
      if st.visited.contains r then st
      else
        let st1 : ExploreSt := ⟨st.visited ++ [r], st.functions⟩
        match heapNode h r with
        | none => st1
        | some n =>
          let st2 : ExploreSt :=
            if n.isFunc then ⟨st1.visited, st1.functions ++ [if path = "" then "main" else path]⟩
            else st1
          (exploreKeyList h n).foldl (fun acc key =>
            let value := (lookupProp n.props key).getD .undefined
            let newPath := if path = "" then key else path ++ "." ++ key
            let acc1 : ExploreSt :=
              if isFunction h value then ⟨acc.visited, acc.functions ++ [newPath]⟩
              else acc
            if isRef value && decide (depth < maxDepth) then rec value newPath (depth + 1) acc1
            else acc1) st2
    | _ => st

/-- The explore closure as a fuel-indexed fixpoint of exploreStep.  The
source recursion increases depth by one at every recursive call and
returns as soon as depth exceeds maxDepth, so any fuel above maxDepth
plus one reproduces the source behaviour exactly; getFunctions below
passes maxDepth plus two. -/
def explore (h : Heap) (maxDepth : Nat) (fuel : Nat) :
    Val → String → Nat → ExploreSt → ExploreSt :=
  Nat.rec (motive := fun _ => Val → String → Nat → ExploreSt → ExploreSt)
    (fun _ _ _ st => st)
    (fun _ ih => exploreStep h maxDepth ih)
    fuel

/-- Object.keys applied to an arbitrary value: throws a TypeError on
null and undefined, lists enumerable own properties of an object, and
yields the empty list on other primitives (string index keys are not
modelled; no claim exercises them). -/
def jsObjectKeys (h : Heap) (v : Val) : Except String (List String) :=
  match v with
  | .undefined => .error "Cannot convert undefined or null to object"
  | .null => .error "Cannot convert undefined or null to object"
  | .ref r =>
    .ok (match heapNode h r with
         | some n => enumKeys n
         | none => [])
  | _ => .ok []

/-- Spread of new Set over a list: deduplication keeping the first
occurrence of each element, in order. -/
def dedupFirst (l : List String) : List String :=
  l.foldl (fun acc x => if acc.contains x then acc else acc ++ [x]) []

/-- Run the explore closure from the root as getFunctions does: empty
path, depth zero, fresh visited set and path list. -/
def runExplore (h : Heap) (maxDepth : Nat) (root : Val) : List String :=
  (explore h maxDepth (maxDepth + 2) root "" 0 ⟨[], []⟩).functions

/-- Model of getFunctions (src/src/index.ts lines 149 to 238): the two
CommonJS-default heuristics, then the plain exploration with the
default and module.exports names filtered out.  Object.keys on the root
is the first statement after the closure, so a nullish root makes the
whole call throw a TypeError. -/
def getFunctions (h : Heap) (pkg : Val) (maxDepth : Nat) : Except String (List String) :=
  match jsObjectKeys h pkg with
  | .error e => .error e
  | .ok keys =>
    let pkgDefault := getProp h pkg "default"
    let heur1 :=
      keys = ["default"] && typeofIsObject h pkgDefault && !(pkgDefault == Val.null)
        && 1 < (match jsObjectKeys h pkgDefault with
                | .ok l => l.length
                | .error _ => 0)
    let heur2 :=
      keys.contains "default" && typeofIsObject h pkgDefault && !(pkgDefault == Val.null)
        && (let defaultKeys :=
              (match jsObjectKeys h pkgDefault with
               | .ok l => l
               | .error _ => []).filter (fun k => isFunction h (getProp h pkgDefault k))
            let topLevelFunctions := keys.filter (fun k =>
              !(k == "default") && isFunction h (getProp h pkg k))
            topLevelFunctions.length < defaultKeys.length && 5 < defaultKeys.length)
    if heur1 || heur2 then
      .ok (dedupFirst (runExplore h maxDepth pkgDefault))
    else
      .ok ((dedupFirst (runExplore h maxDepth pkg)).filter (fun nm =>
        !(nm == "default") && !(nm == "module.exports")))

/-- Outcome of one invocation of the profiled callable, as an oracle
indexed by the attempt number: the settled value with its wall-clock
elapsed milliseconds and heap delta in bytes, or a synchronous throw or
rejection with its message. -/
inductive InvOutcome where
  | ok (value : Val) (elapsedMs : ℚ) (memDelta : ℤ)
  | thrown (msg : String)
deriving DecidableEq, Repr

def outElapsed : InvOutcome → ℚ
  | .ok _ t _ => t
  | .thrown _ => 0

def outMem : InvOutcome → ℤ
  | .ok _ _ m => m
  | .thrown _ => 0

def outVal : InvOutcome → Val
  | .ok v _ _ => v
  | .thrown _ => .undefined

def isOkOutcome : InvOutcome → Bool
  | .ok _ _ _ => true
  | .thrown _ => false

/-- The loop state of benchmarkFunction: the number of invocations
attempted so far, the times and memories arrays, and the result and
error variables.  result starts as undefined and is set to null when an
invocation throws. -/
structure RunSeries where
  attempts : Nat
  times : List ℚ
  memories : List ℤ
  result : Val
  error : Option String
deriving DecidableEq, Repr

/-- The for loop of benchmarkFunction (src/src/index.ts lines 264 to
287): on success push the measurements and keep the settled value, on a
throw record the message, set result to null and break. -/
def runLoop (invoke : Nat → InvOutcome) : Nat → RunSeries → RunSeries
  | 0, s => s
  | n + 1, s =>
    match invoke s.attempts with
    | .ok v t m =>
      runLoop invoke n ⟨s.attempts + 1, s.times ++ [t], s.memories ++ [m], v, s.error⟩
    | .thrown msg => ⟨s.attempts + 1, s.times, s.memories, .null, some msg⟩

/-- Arithmetic mean of a list of rationals in JavaScript semantics: the
sum divided by the length, where the empty list gives zero over zero,
which is NaN, modelled as none. -/
def avgQ (xs : List ℚ) : Option ℚ :=
  if xs.length = 0 then none else some (xs.sum / xs.length)

def avgZ (xs : List ℤ) : Option ℚ :=
  if xs.length = 0 then none else some ((xs.sum : ℚ) /xs.length)

/-- The record benchmarkFunction returns, minus the package name: time
and memory are the averages over the collected measurements, with none
standing for the non-finite NaN produced when no measurement was
collected. -/
structure FnResult where
  funcPath : String
  time : Option ℚ
  memory : Option ℚ
  result : Val
  error : Option String
deriving DecidableEq, Repr

/-- Model of the measuring part of benchmarkFunction (src/src/index.ts
lines 258 to 299): run the loop for the configured run count starting
from the fresh state, then average the collected measurements. -/
def benchmarkRun (functionPath : String) (invoke : Nat → InvOutcome) (runs : Nat) : FnResult :=
  let s := runLoop invoke runs ⟨0, [], [], .undefined, none⟩
  ⟨functionPath, avgQ s.times, avgZ s.memories, s.result, s.error⟩

/-- One entry of the results array handed to displayResults. -/
structure BenchmarkResult where
  pkgName : String
  funcPath : String
  time : Option ℚ
  memory : Option ℚ
  result : Val
  error : Option String
deriving DecidableEq, Repr

/-- The filter of displayResults selecting outcomes whose error field is
falsy: undefined, or the empty string. -/
def errFalsy : Option String → Bool
  | none => true
  | some s => s == ""

def successfulResults (results : List BenchmarkResult) : List BenchmarkResult :=
  results.filter (fun r => errFalsy r.error)

/-- Strict less-than on JavaScript numbers where none models a
non-finite NaN: any comparison with NaN is false. -/
def jsLtTime : Option ℚ → Option ℚ → Bool
  | some a, some b => decide (a < b)
  | _, _ => false

/-- JavaScript division where a zero divisor yields a non-finite result
(NaN for zero over zero, infinity otherwise), modelled as none. -/
def jsDivOpt : Option ℚ → Option ℚ → Option ℚ
  | some a, some b => if b = 0 then none else some (a / b)
  | _, _ => none

/-- toFixed 2 as rounding to two decimal places: round half up on the
exact rational (binary floating point artifacts are out of scope). -/
def toFixed2 (q : ℚ) : ℚ :=
  (round (q * 100) : ℤ) / 100

/-- Model of the winner block of displayResults (src/src/index.ts lines
330 to 339): when exactly two outcomes pass the error filter, the first
is the winner precisely when its time is strictly below the second one,
otherwise the second is the winner; the reported ratio is the loser time
over the winner time, rounded to two decimals. -/
def displayResultsWinner (results : List BenchmarkResult) :
    Option (BenchmarkResult × BenchmarkResult × Option ℚ) :=
  match successfulResults results with
  | [a, b] =>
    let w := if jsLtTime a.time b.time then a else b
    let l := if jsLtTime a.time b.time then b else a
    some (w, l, (jsDivOpt l.time w.time).map toFixed2)
  | _ => none

/-- Model of the divergence note of the current displayResults revision
(src/src/index.ts lines 876 to 891): when exactly two outcomes pass the
error filter, the warning is printed precisely when the JSON
serialisations of their result values differ.  JSON.stringify is a
platform function, taken as a parameter; it returns none (the JavaScript
undefined) on values with no JSON form. -/
def displayResultsDivergence (strfy : Val → Option String)
    (results : List BenchmarkResult) : Bool :=
  match successfulResults results with
  | [a, b] => strfy a.result != strfy b.result
  | _ => false

/-- A JSON value as produced by JSON.parse. -/
inductive JValue where
  | null
  | bool (b : Bool)
  | num (q : ℚ)
  | str (s : String)
  | arr (elems : List JValue)
  | obj (fields : List (String × JValue))
deriving Repr

def JValue.isArr : JValue → Bool
  | .arr _ => true
  | _ => false

/-- Outer delimiter test applied by parseArguments to the trimmed input
after a JSON parse failure. -/
def looksStructured (s : String) : Bool :=
  (strStartsWith s "[" && strEndsWith s "]")
    || (strStartsWith s "\x7b" && strEndsWith s "\x7d")

/-- Model of parseArguments (src/src/index.ts lines 342 to 379),
parameterised by the platform JSON.parse (none models a parse throw).
Whitespace-only input returns the empty list before any parse attempt;
a parsed array is the argument list itself; any other parsed value is
wrapped; on parse failure a bracket- or brace-delimited trimmed input
throws, and anything else becomes a single literal string argument.
The model uses the ASCII trim of Lean for the trim of JavaScript. -/
def parseArguments (jsonParse : String → Option JValue) (input : String) :
    Except String (List JValue) :=
  if jsTrim input = "" then .ok []
  else
    match jsonParse input with
    | some (.arr elems) => .ok elems
    | some v => .ok [v]
    | none =>
      let trimmed := jsTrim input
      if strStartsWith trimmed "[" && strEndsWith trimmed "]" then
        .error "Invalid JSON array syntax. Please check your brackets, quotes, and commas."
      else if strStartsWith trimmed "\x7b" && strEndsWith trimmed "\x7d" then
        .error "Invalid JSON object syntax. Please check your brackets, quotes, and commas."
      else .ok [.str trimmed]

def exceptIsError {ε α : Type} : Except ε α → Bool
  | .error _ => true
  | .ok _ => false

/-- Two error-free outcomes with exactly equal averaged times, used to
exhibit the tie-breaking behaviour of the winner block. -/
def tieFirst : BenchmarkResult := ⟨"pkgA", "f", some 1, some 0, .num 1, none⟩

def tieSecond : BenchmarkResult := ⟨"pkgB", "g", some 1, some 0, .num 1, none⟩

/-- A heap with an empty object at reference zero and an object whose
property x holds the number forty-two at reference one. -/
def hResolve : Heap := [⟨false, []⟩, ⟨false, [⟨"x", true, .num 42⟩]⟩]

/-- A heap whose root object carries a present but falsy default
property. -/
def hFalsyDefault : Heap := [⟨false, [⟨"default", true, .bool false⟩]⟩]

/-- A heap whose single node is an empty object. -/
def hEmptyObj : Heap := [⟨false, []⟩]

/-- The self-referential heap of the specification test: the root
object at reference zero holds itself under the name self and a
function node under the name f. -/
def hCycle : Heap := [⟨false, [⟨"self", true, .ref 0⟩, ⟨"f", true, .ref 1⟩]⟩, ⟨true, []⟩]

theorem explore_zero (h : Heap) (maxDepth : Nat) (v : Val) (p : String) (d : Nat)
    (st : ExploreSt) : explore h maxDepth 0 v p d st = st := rfl

theorem explore_succ (h : Heap) (maxDepth fuel : Nat) (v : Val) (p : String) (d : Nat)
    (st : ExploreSt) :
    explore h maxDepth (fuel + 1) v p d st
      = exploreStep h maxDepth (explore h maxDepth fuel) v p d st := rfl

/-- C5: parseArguments maps every whitespace-only input to the empty
argument list; every input the platform JSON parser turns into an array
to that array itself; every input it turns into any other JSON value to
the one-element list holding that value; and every non-parsable input
whose trimmed form is not bracket- or brace-delimited to the one-element
list holding the trimmed input as a literal string argument. -/
theorem c5_parseArguments_shapes (jsonParse : String → Option JValue) (input : String) :
    (jsTrim input = "" → parseArguments jsonParse input = .ok [])
    ∧ (jsTrim input ≠ "" → ∀ elems, jsonParse input = some (.arr elems) →
        parseArguments jsonParse input = .ok elems)
    ∧ (jsTrim input ≠ "" → ∀ v, jsonParse input = some v → v.isArr = false →
        parseArguments jsonParse input = .ok [v])
    ∧ (jsTrim input ≠ "" → jsonParse input = none →
        looksStructured (jsTrim input) = false →
        parseArguments jsonParse input = .ok [.str (jsTrim input)]) := by
  refine ⟨?_, ?_, ?_, ?_⟩
  · intro hws
    simp [parseArguments, hws]
  · intro hws elems hp
    simp [parseArguments, hws, hp]
  · intro hws v hp hna
    cases v <;> simp_all [parseArguments, JValue.isArr]
  · intro hws hp hshape
    simp only [looksStructured, Bool.or_eq_false_iff, Bool.and_eq_false_iff] at hshape
    simp only [parseArguments, hws, hp, if_neg hws]
    rcases hshape with ⟨h1, h2⟩
    rcases h1 with h1 | h1 <;> rcases h2 with h2 | h2 <;>
      simp [h1, h2]

/-- C5 witness: the whitespace-only conjunct at a concrete input. -/
theorem c5_parseArguments_shapes_witness :
    jsTrim "   " = "" ∧ parseArguments (fun _ => none) "   " = .ok [] :=
  ⟨by decide, (c5_parseArguments_shapes (fun _ => none) "   ").1 (by decide)⟩

/-- C6: parseArguments reports the malformed-structured-argument error
precisely when the platform JSON parse of the input fails and the
trimmed input is bracket- or brace-delimited; for every input outside
that shape it returns an argument list and never throws.  The model is a
pure function of the input and the parser, which captures the
no-side-effects clause. -/
theorem c6_parseArguments_error_iff (jsonParse : String → Option JValue) (input : String) :
    (exceptIsError (parseArguments jsonParse input) = true
      ↔ jsonParse input = none ∧ looksStructured (jsTrim input) = true)
    ∧ (looksStructured (jsTrim input) = false →
        ∃ args, parseArguments jsonParse input = .ok args) := by
  have hiff : exceptIsError (parseArguments jsonParse input) = true
      ↔ jsonParse input = none ∧ looksStructured (jsTrim input) = true := by
    by_cases hws : jsTrim input = ""
    · have h0 : looksStructured (jsTrim input) = false := by rw [hws]; decide
      rw [hws] at h0
      simp [parseArguments, hws, exceptIsError, h0]
    · cases hp : jsonParse input with
      | some v =>
        cases v <;> simp [parseArguments, hws, hp, exceptIsError]
      | none =>
        simp only [parseArguments, if_neg hws, hp, looksStructured, true_and]
        by_cases hb : strStartsWith (jsTrim input) "[" && strEndsWith (jsTrim input) "]"
        · simp [hb, exceptIsError]
        · by_cases hc : strStartsWith (jsTrim input) "\x7b" && strEndsWith (jsTrim input) "\x7d"
          · simp [hb, hc, exceptIsError]
          · simp [hb, hc, exceptIsError]
  refine ⟨hiff, fun hshape => ?_⟩
  have hfalse : exceptIsError (parseArguments jsonParse input) = false := by
    cases hE : exceptIsError (parseArguments jsonParse input)
    · rfl
    · exact absurd (hiff.mp hE).2 (by simp [hshape])
  cases hPA : parseArguments jsonParse input with
  | ok args => exact ⟨args, rfl⟩
  | error e => rw [hPA] at hfalse; simp [exceptIsError] at hfalse

/-- C6 witness: the never-throws conjunct at a concrete input. -/
theorem c6_parseArguments_error_iff_witness :
    looksStructured (jsTrim "hello world") = false
    ∧ ∃ args, parseArguments (fun _ => none) "hello world" = .ok args :=
  ⟨by decide, (c6_parseArguments_error_iff (fun _ => none) "hello world").2 (by decide)⟩

/-- C1 counterexample: with two error-free outcomes whose averaged times
are exactly equal, the winner block declares the second-compared outcome
the winner, not the first as the claim states, because the strict
less-than test is false on a tie and the conditional then selects the
second element. -/
theorem c1_tie_counterexample :
    displayResultsWinner [tieFirst, tieSecond] = some (tieSecond, tieFirst, some (toFixed2 1))
    ∧ tieSecond ≠ tieFirst := by
  constructor
  · norm_num [displayResultsWinner, successfulResults, tieFirst, tieSecond, errFalsy,
      jsLtTime, jsDivOpt]
  · intro hcontra
    exact absurd (congrArg BenchmarkResult.pkgName hcontra) (by decide)

/-- C1 amended: for two error-free outcomes the winner block declares as
winner the outcome with strictly lower averaged time and reports the
ratio of the loser time to the winner time rounded to two decimal
places; when the two averaged times are exactly equal the second
compared outcome wins. -/
theorem c1_winner_lower_time (r1 r2 : BenchmarkResult) (t1 t2 : ℚ)
    (he1 : r1.error = none) (he2 : r2.error = none)
    (ht1 : r1.time = some t1) (ht2 : r2.time = some t2)
    (hp1 : 0 < t1) (hp2 : 0 < t2) :
    (t1 < t2 →
      displayResultsWinner [r1, r2] = some (r1, r2, some (toFixed2 (t2 / t1))))
    ∧ (t2 ≤ t1 →
      displayResultsWinner [r1, r2] = some (r2, r1, some (toFixed2 (t1 / t2)))) := by
  have hs : successfulResults [r1, r2] = [r1, r2] := by
    simp [successfulResults, errFalsy, he1, he2]
  constructor
  · intro hlt
    simp [displayResultsWinner, hs, jsLtTime, ht1, ht2, hlt, jsDivOpt, hp1.ne']
  · intro hle
    simp [displayResultsWinner, hs, jsLtTime, ht1, ht2, not_lt.mpr hle, jsDivOpt, hp2.ne']

/-- C1 witness: the strict case at concrete outcomes with times one and
two. -/
theorem c1_winner_lower_time_witness :
    displayResultsWinner
        [⟨"pkgA", "f", some 1, some 0, .num 1, none⟩,
         ⟨"pkgB", "g", some 2, some 0, .num 1, none⟩]
      = some (⟨"pkgA", "f", some 1, some 0, .num 1, none⟩,
              ⟨"pkgB", "g", some 2, some 0, .num 1, none⟩,
              some (toFixed2 (2 / 1))) :=
  (c1_winner_lower_time _ _ 1 2 rfl rfl rfl rfl (by norm_num) (by norm_num)).1
    (by norm_num)

/-- C7: whenever both compared outcomes pass the error filter and the
platform JSON serialisations of their result values differ, the current
displayResults revision prints the divergence note, and the winner block
still declares a winner, whatever the two averaged times are. -/
theorem c7_divergence_flagged (strfy : Val → Option String) (r1 r2 : BenchmarkResult)
    (he1 : r1.error = none) (he2 : r2.error = none)
    (hne : strfy r1.result ≠ strfy r2.result) :
    displayResultsDivergence strfy [r1, r2] = true
    ∧ (displayResultsWinner [r1, r2]).isSome = true := by
  have hs : successfulResults [r1, r2] = [r1, r2] := by
    simp [successfulResults, errFalsy, he1, he2]
  constructor
  · simp [displayResultsDivergence, hs, hne]
  · simp [displayResultsWinner, hs]

/-- C7 witness: the hello-world divergence pair of the specification at
a concrete serialiser. -/
theorem c7_divergence_flagged_witness :
    displayResultsDivergence (fun v => match v with | .str s => some s | _ => none)
        [⟨"pkgA", "f", some 2, some 0, .str "HelloWorld", none⟩,
         ⟨"pkgB", "g", some 1, some 0, .str "Hello world", none⟩] = true
    ∧ (displayResultsWinner
        [⟨"pkgA", "f", some 2, some 0, .str "HelloWorld", none⟩,
         ⟨"pkgB", "g", some 1, some 0, .str "Hello world", none⟩]).isSome = true :=
  c7_divergence_flagged _ _ _ rfl rfl (by decide)

/-- C2 counterexample: the path x resolves to nothing on the empty
object and to a non-callable number on the second object, yet
benchmarkFunction reports the identical TypeError in both situations, so
the two conditions are reported as one and the caller cannot distinguish
not-found from found-but-not-callable. -/
theorem c2_single_error_counterexample :
    getValue hResolve (.ref 0) "x" = .ok .undefined
    ∧ getValue hResolve (.ref 1) "x" = .ok (.num 42)
    ∧ isFunction hResolve (.num 42) = false
    ∧ resolveCallable hResolve (.ref 0) "x" = .error "x is not a function"
    ∧ resolveCallable hResolve (.ref 1) "x" = .error "x is not a function" :=
  ⟨rfl, rfl, rfl, rfl, rfl⟩

/-- C2 amended: whenever the chosen path resolves to a value that is not
a function, whether because nothing is there or because the value is not
callable, benchmarkFunction reports the one explicit TypeError carrying
the offending path, never a silent default. -/
theorem c2_not_function_single_error (h : Heap) (pkg : Val) (path : String) (v : Val)
    (hres : getValue h pkg path = .ok v) (hnf : isFunction h v = false) :
    resolveCallable h pkg path = .error (path ++ " is not a function") := by
  unfold resolveCallable
  rw [hres]
  simp [hnf]

/-- C2 witness: the amended theorem at the concrete non-callable
property. -/
theorem c2_not_function_single_error_witness :
    resolveCallable hResolve (.ref 1) "x" = .error ("x" ++ " is not a function") :=
  c2_not_function_single_error hResolve (.ref 1) "x" (.num 42) rfl rfl

/-- C8 counterexample: the root at reference zero has a present default
property holding false, yet getValue on the path default returns the
root itself, not that property, because the source tests truthiness with
a logical-or rather than presence. -/
theorem c8_default_truthiness_counterexample :
    lookupProp [⟨"default", true, .bool false⟩] "default" = some (.bool false)
    ∧ getValue hFalsyDefault (.ref 0) "default" = .ok (.ref 0)
    ∧ Val.ref 0 ≠ Val.bool false :=
  ⟨rfl, rfl, by decide⟩

/-- C8 amended: on a non-nullish root the path default yields the
default property when it is present and truthy and the root itself
otherwise; the path main yields the root; every other path is split on
dots and walked segment by segment with optional chaining, a walk that
stays at undefined once any intermediate segment is missing; and every
path other than default resolves without an exception on every root. -/
theorem c8_getValue_resolution (h : Heap) (root : Val) (path : String) :
    (root ≠ .undefined → root ≠ .null →
      getValue h root "default"
        = .ok (if jsTruthy (getProp h root "default") then getProp h root "default"
               else root))
    ∧ getValue h root "main" = .ok root
    ∧ (path ≠ "default" → path ≠ "main" →
        getValue h root path
          = .ok ((jsSplitDot path).foldl (fun cur key => optChainGet h cur key) root))
    ∧ (∀ keys : List String,
        keys.foldl (fun cur key => optChainGet h cur key) Val.undefined = Val.undefined)
    ∧ (path ≠ "default" → ∃ v, getValue h root path = .ok v) := by
  refine ⟨?_, ?_, ?_, ?_, ?_⟩
  · intro h1 h2
    cases root <;> simp_all [getValue]
  · simp [getValue]
  · intro h1 h2
    simp [getValue, h1, h2]
  · intro keys
    induction keys with
    | nil => rfl
    | cons k rest ih => simpa [optChainGet] using ih
  · intro h1
    by_cases h2 : path = "main"
    · exact ⟨root, by simp [getValue, h1, h2]⟩
    · refine ⟨(jsSplitDot path).foldl (fun cur key => optChainGet h cur key) root, ?_⟩
      simp [getValue, h1, h2]

/-- C8 witness: the falsy-default conjunct and the never-throws conjunct
at concrete inputs. -/
theorem c8_getValue_resolution_witness :
    getValue hFalsyDefault (.ref 0) "default"
      = .ok (if jsTruthy (getProp hFalsyDefault (.ref 0) "default")
             then getProp hFalsyDefault (.ref 0) "default" else .ref 0)
    ∧ ∃ v, getValue hFalsyDefault (.ref 0) "missing.path" = .ok v :=
  ⟨(c8_getValue_resolution hFalsyDefault (.ref 0) "missing.path").1
      (by decide) (by decide),
   (c8_getValue_resolution hFalsyDefault (.ref 0) "missing.path").2.2.2.2 (by decide)⟩

theorem map_range_shift_succ {α : Type} (g : Nat → α) (a n : Nat) :
    (List.range (n + 1)).map (fun i => g (a + i))
      = g a :: (List.range n).map (fun i => g (a + 1 + i)) := by
  rw [List.range_succ_eq_map]
  simp only [List.map_cons, List.map_map, Nat.add_zero]
  congr 1
  apply List.map_congr_left
  intro i _
  simp only [Function.comp_apply]
  congr 1
  omega

/-- When every invocation in the window succeeds, the run loop performs
all of them, collects one time and one memory measurement per run, and
leaves the error variable untouched. -/
theorem runLoop_all_ok (invoke : Nat → InvOutcome) :
    ∀ (n : Nat) (s : RunSeries),
      (∀ i, i < n → isOkOutcome (invoke (s.attempts + i)) = true) →
      (runLoop invoke n s).attempts = s.attempts + n
      ∧ (runLoop invoke n s).times
          = s.times ++ (List.range n).map (fun i => outElapsed (invoke (s.attempts + i)))
      ∧ (runLoop invoke n s).memories
          = s.memories ++ (List.range n).map (fun i => outMem (invoke (s.attempts + i)))
      ∧ (runLoop invoke n s).error = s.error := by
  intro n
  induction n with
  | zero => intro s _; simp [runLoop]
  | succ n ih =>
    intro s hok
    have h0 : isOkOutcome (invoke s.attempts) = true := by
      have := hok 0 (Nat.succ_pos n)
      simpa using this
    cases hinv : invoke s.attempts with
    | thrown msg => rw [hinv] at h0; simp [isOkOutcome] at h0
    | ok v t m =>
      have hstep : runLoop invoke (n + 1) s
          = runLoop invoke n
              ⟨s.attempts + 1, s.times ++ [t], s.memories ++ [m], v, s.error⟩ := by
        conv_lhs => rw [runLoop]
        rw [hinv]
      obtain ⟨ha, ht, hm, he⟩ := ih
        ⟨s.attempts + 1, s.times ++ [t], s.memories ++ [m], v, s.error⟩
        (fun i hi => by
          have := hok (i + 1) (by omega)
          have harith : s.attempts + (i + 1) = s.attempts + 1 + i := by omega
          rw [harith] at this
          exact this)
      rw [hstep]
      refine ⟨?_, ?_, ?_, by rw [he]⟩
      · rw [ha]
        show s.attempts + 1 + n = s.attempts + (n + 1)
        omega
      · rw [ht, map_range_shift_succ (fun j => outElapsed (invoke j)) s.attempts n]
        have h1 : outElapsed (invoke s.attempts) = t := by rw [hinv]; rfl
        simp [h1]
      · rw [hm, map_range_shift_succ (fun j => outMem (invoke j)) s.attempts n]
        have h1 : outMem (invoke s.attempts) = m := by rw [hinv]; rfl
        simp [h1]

/-- When the invocations up to position k succeed and the invocation at
position k throws, the run loop stops right after that attempt: exactly
k measurements are kept, the result variable is set to null, and the
error variable holds the thrown message. -/
theorem runLoop_fail_at (invoke : Nat → InvOutcome) :
    ∀ (k n : Nat) (s : RunSeries) (msg : String),
      k < n →
      (∀ i, i < k → isOkOutcome (invoke (s.attempts + i)) = true) →
      invoke (s.attempts + k) = .thrown msg →
      runLoop invoke n s =
        ⟨s.attempts + k + 1,
         s.times ++ (List.range k).map (fun i => outElapsed (invoke (s.attempts + i))),
         s.memories ++ (List.range k).map (fun i => outMem (invoke (s.attempts + i))),
         .null, some msg⟩ := by
  intro k
  induction k with
  | zero =>
    intro n s msg hkn _ hthrow
    obtain ⟨m, rfl⟩ : ∃ m, n = m + 1 := ⟨n - 1, by omega⟩
    rw [Nat.add_zero] at hthrow
    conv_lhs => rw [runLoop]
    rw [hthrow]
    simp
  | succ k ih =>
    intro n s msg hkn hok hthrow
    obtain ⟨m, rfl⟩ : ∃ m, n = m + 1 := ⟨n - 1, by omega⟩
    have h0 : isOkOutcome (invoke s.attempts) = true := by
      have := hok 0 (Nat.succ_pos k)
      simpa using this
    cases hinv : invoke s.attempts with
    | thrown msg2 => rw [hinv] at h0; simp [isOkOutcome] at h0
    | ok v t mem =>
      have hstep : runLoop invoke (m + 1) s
          = runLoop invoke m
              ⟨s.attempts + 1, s.times ++ [t], s.memories ++ [mem], v, s.error⟩ := by
        conv_lhs => rw [runLoop]
        rw [hinv]
      have hrec := ih m
        ⟨s.attempts + 1, s.times ++ [t], s.memories ++ [mem], v, s.error⟩
        msg (by omega)
        (fun i hi => by
          have := hok (i + 1) (by omega)
          have harith : s.attempts + (i + 1) = s.attempts + 1 + i := by omega
          rw [harith] at this
          exact this)
        (by
          have harith : s.attempts + 1 + k = s.attempts + (k + 1) := by omega
          rw [harith]
          exact hthrow)
      rw [hstep, hrec]
      have harith2 : s.attempts + 1 + k + 1 = s.attempts + (k + 1) + 1 := by omega
      have h1 : outElapsed (invoke s.attempts) = t := by rw [hinv]; rfl
      have h2 : outMem (invoke s.attempts) = mem := by rw [hinv]; rfl
      rw [map_range_shift_succ (fun j => outElapsed (invoke j)) s.attempts k,
        map_range_shift_succ (fun j => outMem (invoke j)) s.attempts k]
      simp [h1, h2, harith2]

/-- C3 amended: for a run count between one and one hundred, when no
invocation fails the loop attempts exactly that many invocations,
collects one time measurement per run, reports no error, and the
averaged time is a finite nonnegative number whenever each elapsed
measurement is nonnegative; when the invocation at position k throws
after k successes, the loop stops right after attempt k plus one with no
further invocation, keeps exactly the k earlier measurements for the
averages, stores the thrown message as the error, and sets the result
variable to null (the JavaScript null, not undefined). -/
theorem c3_profile_run_series (functionPath : String) (invoke : Nat → InvOutcome)
    (runs : Nat) (hlo : 1 ≤ runs) (hhi : runs ≤ 100) :
    ((∀ i, i < runs → isOkOutcome (invoke i) = true) →
      (runLoop invoke runs ⟨0, [], [], .undefined, none⟩).attempts = runs
      ∧ (runLoop invoke runs ⟨0, [], [], .undefined, none⟩).times.length = runs
      ∧ (runLoop invoke runs ⟨0, [], [], .undefined, none⟩).error = none
      ∧ ((∀ i, i < runs → 0 ≤ outElapsed (invoke i)) →
          ∃ q, (benchmarkRun functionPath invoke runs).time = some q ∧ 0 ≤ q))
    ∧ (∀ k msg, k < runs →
        (∀ i, i < k → isOkOutcome (invoke i) = true) →
        invoke k = .thrown msg →
        (runLoop invoke runs ⟨0, [], [], .undefined, none⟩).attempts = k + 1
        ∧ (runLoop invoke runs ⟨0, [], [], .undefined, none⟩).times
            = (List.range k).map (fun i => outElapsed (invoke i))
        ∧ (runLoop invoke runs ⟨0, [], [], .undefined, none⟩).result = .null
        ∧ (runLoop invoke runs ⟨0, [], [], .undefined, none⟩).error = some msg
        ∧ (benchmarkRun functionPath invoke runs).time
            = avgQ ((List.range k).map (fun i => outElapsed (invoke i)))
        ∧ (benchmarkRun functionPath invoke runs).memory
            = avgZ ((List.range k).map (fun i => outMem (invoke i)))) := by
  constructor
  · intro hall
    obtain ⟨ha, ht, hm, he⟩ := runLoop_all_ok invoke runs ⟨0, [], [], .undefined, none⟩
      (fun i hi => by simpa using hall i hi)
    simp only [Nat.zero_add] at ha ht hm he
    refine ⟨by simpa using ha, ?_, by simpa using he, ?_⟩
    · rw [ht]
      simp
    · intro hnn
      refine ⟨((List.range runs).map (fun i => outElapsed (invoke i))).sum
          / ((List.range runs).map (fun i => outElapsed (invoke i))).length, ?_, ?_⟩
      · show avgQ (runLoop invoke runs ⟨0, [], [], .undefined, none⟩).times = _
        rw [ht]
        simp only [List.nil_append]
        rw [avgQ, if_neg (by simp; omega)]
      · apply div_nonneg
        · apply List.sum_nonneg
          intro x hx
          simp only [List.mem_map, List.mem_range] at hx
          obtain ⟨i, hi, rfl⟩ := hx
          exact hnn i hi
        · positivity
  · intro k msg hk hok hthrow
    have hfail := runLoop_fail_at invoke k runs ⟨0, [], [], .undefined, none⟩ msg hk
      (fun i hi => by simpa using hok i hi)
      (by simpa using hthrow)
    refine ⟨?_, ?_, ?_, ?_, ?_, ?_⟩
    · rw [hfail]; simp
    · rw [hfail]; simp
    · rw [hfail]
    · rw [hfail]
    · show avgQ (runLoop invoke runs ⟨0, [], [], .undefined, none⟩).times = _
      rw [hfail]; simp
    · show avgZ (runLoop invoke runs ⟨0, [], [], .undefined, none⟩).memories = _
      rw [hfail]; simp

/-- C3 witness: the all-success conjunct at a concrete three-run series
with constant outcomes. -/
theorem c3_profile_run_series_witness :
    (runLoop (fun _ => .ok (.num 7) 2 100) 3 ⟨0, [], [], .undefined, none⟩).attempts = 3
    ∧ (runLoop (fun _ => .ok (.num 7) 2 100) 3 ⟨0, [], [], .undefined, none⟩).times.length = 3
    ∧ (runLoop (fun _ => .ok (.num 7) 2 100) 3 ⟨0, [], [], .undefined, none⟩).error = none
    ∧ ((∀ i, i < 3 → 0 ≤ outElapsed ((fun _ => InvOutcome.ok (.num 7) 2 100) i)) →
        ∃ q, (benchmarkRun "f" (fun _ => .ok (.num 7) 2 100) 3).time = some q ∧ 0 ≤ q) :=
  (c3_profile_run_series "f" (fun _ => .ok (.num 7) 2 100) 3 (by omega) (by omega)).1
    (fun _ _ => rfl)

/-- C3 counterexample: with a callable that succeeds twice and throws on
the third attempt, the recorded result value is the JavaScript null and
not undefined, contradicting the claim that the result is set to
undefined on failure. -/
theorem c3_result_null_counterexample :
    (benchmarkRun "f"
        (fun i => if i < 2 then .ok (.num 1) 2 3 else .thrown "boom") 5).result = .null
    ∧ Val.null ≠ Val.undefined :=
  ⟨rfl, by decide⟩

/-- C10: when the very first invocation throws, no measurement is
collected, the averaged time and averaged memory are the non-finite
zero-over-zero NaN (modelled as none, never the number zero), and the
returned result value is null. -/
theorem c10_first_run_failure (functionPath : String) (invoke : Nat → InvOutcome)
    (runs : Nat) (msg : String) (hlo : 1 ≤ runs) (hf : invoke 0 = .thrown msg) :
    benchmarkRun functionPath invoke runs
      = ⟨functionPath, none, none, .null, some msg⟩
    ∧ (benchmarkRun functionPath invoke runs).time ≠ some 0
    ∧ (benchmarkRun functionPath invoke runs).memory ≠ some 0 := by
  obtain ⟨m, rfl⟩ : ∃ m, runs = m + 1 := ⟨runs - 1, by omega⟩
  have hloop : runLoop invoke (m + 1) ⟨0, [], [], .undefined, none⟩
      = ⟨1, [], [], .null, some msg⟩ := by
    conv_lhs => rw [runLoop]
    rw [show (⟨0, [], [], .undefined, none⟩ : RunSeries).attempts = 0 from rfl, hf]
  have hmain : benchmarkRun functionPath invoke (m + 1)
      = ⟨functionPath, none, none, .null, some msg⟩ := by
    unfold benchmarkRun
    rw [hloop]
    simp [avgQ, avgZ]
  refine ⟨hmain, ?_, ?_⟩
  · rw [hmain]; simp
  · rw [hmain]; simp

/-- C10 witness: the theorem at a concrete always-throwing callable and
five configured runs. -/
theorem c10_first_run_failure_witness :
    benchmarkRun "f" (fun _ => .thrown "boom") 5 = ⟨"f", none, none, .null, some "boom"⟩ :=
  (c10_first_run_failure "f" (fun _ => .thrown "boom") 5 "boom" (by omega) rfl).1

/-- C4 counterexample: exploring a null root does not return an empty
set; Object.keys on the root, the first statement of getFunctions after
the closure, throws a TypeError on a nullish argument. -/
theorem c4_null_root_counterexample :
    getFunctions hEmptyObj .null 3 = .error "Cannot convert undefined or null to object"
    ∧ ∀ l : List String, getFunctions hEmptyObj .null 3 ≠ .ok l := by
  refine ⟨rfl, fun l hcontra => ?_⟩
  rw [show getFunctions hEmptyObj .null 3
      = .error "Cannot convert undefined or null to object" from rfl] at hcontra
  exact Except.noConfusion hcontra

/-- C4 amended: exploring the empty object yields the empty path list,
but a null or undefined root makes getFunctions throw the TypeError of
Object.keys rather than return an empty set, whatever the heap. -/
theorem c4_explore_empty_and_nullish (h : Heap) (maxDepth : Nat) :
    getFunctions h .null maxDepth = .error "Cannot convert undefined or null to object"
    ∧ getFunctions h .undefined maxDepth = .error "Cannot convert undefined or null to object"
    ∧ getFunctions hEmptyObj (.ref 0) 3 = .ok [] :=
  ⟨rfl, rfl, rfl⟩

theorem foldl_preserves_invariant {α β : Type} (P : β → Prop) (f : β → α → β)
    (hf : ∀ b a, P b → P (f b a)) :
    ∀ (l : List α) (b : β), P b → P (l.foldl f b)
  | [], _, hb => hb
  | a :: l, b, hb => foldl_preserves_invariant P f hf l (f b a) (hf b a hb)

/-- One step of the explore closure preserves a duplicate-free visited
set whenever the recursive call it is given does: a reference is
appended only after the membership test has failed. -/
theorem exploreStep_visited_nodup (h : Heap) (maxDepth : Nat)
    (rec : Val → String → Nat → ExploreSt → ExploreSt)
    (hrec : ∀ v p d st, st.visited.Nodup → (rec v p d st).visited.Nodup)
    (obj : Val) (path : String) (depth : Nat) (st : ExploreSt)
    (hst : st.visited.Nodup) :
    (exploreStep h maxDepth rec obj path depth st).visited.Nodup := by
  unfold exploreStep
  split
  · exact hst
  · match obj with
    | .undefined => exact hst
    | .null => exact hst
    | .bool _ => exact hst
    | .num _ => exact hst
    | .str _ => exact hst
    | .ref r =>
      simp only
      split
      · exact hst
      · rename_i hmem
        have hnotmem : r ∉ st.visited := by
          intro hr
          exact hmem (List.elem_eq_true_of_mem hr)
        have hst1 : (st.visited ++ [r]).Nodup := by
          simp [List.nodup_append, hst, hnotmem]
        match heapNode h r with
        | none => exact hst1
        | some n =>
          apply foldl_preserves_invariant (fun acc : ExploreSt => acc.visited.Nodup)
          · intro acc key hacc
            dsimp only
            split
            · apply hrec
              split <;> exact hacc
            · split <;> exact hacc
          · split <;> exact hst1

/-- Every fuel instance of the explore closure keeps the visited set
duplicate-free. -/
theorem explore_visited_nodup (h : Heap) (maxDepth : Nat) :
    ∀ (fuel : Nat) (v : Val) (p : String) (d : Nat) (st : ExploreSt),
      st.visited.Nodup → (explore h maxDepth fuel v p d st).visited.Nodup := by
  intro fuel
  induction fuel with
  | zero => intro v p d st hst; exact hst
  | succ fuel ih =>
    intro v p d st hst
    rw [explore_succ]
    exact exploreStep_visited_nodup h maxDepth _ ih v p d st hst

/-- C9: the explore closure visits every object or function node at
most once, because a reference is added to the visited set only after
the membership test on that set has failed, for every depth bound, heap,
root, and starting state; and on the self-referential root whose
property self is the root itself, exploration terminates with the path
list containing exactly the path f. -/
theorem c9_explore_cycle_safe :
    (∀ (h : Heap) (maxDepth fuel : Nat) (v : Val) (p : String) (d : Nat) (st : ExploreSt),
      st.visited.Nodup → (explore h maxDepth fuel v p d st).visited.Nodup)
    ∧ getFunctions hCycle (.ref 0) 3 = .ok ["f"] :=
  ⟨fun h maxDepth fuel v p d st hst => explore_visited_nodup h maxDepth fuel v p d st hst,
   rfl⟩

/-- C9 witness: the duplicate-free visited set at the concrete cyclic
heap, starting from the empty state. -/
theorem c9_explore_cycle_safe_witness :
    (explore hCycle 3 5 (.ref 0) "" 0 ⟨[], []⟩).visited.Nodup :=
  c9_explore_cycle_safe.1 hCycle 3 5 (.ref 0) "" 0 ⟨[], []⟩ List.nodup_nil
